import Mathlib

/-!
# Verification of the python-tidegates scenario engine

A shallow embedding of `src/tidegates/toolbox.py` (class `StandardScenarios`
and its subclass `Flooder`).  Python strings are embedded as `List Char`.
Python floating-point numbers are idealized as exact decimal numbers
(`Dec` below): every numeric constant of the program (surge elevations,
sea-level-rise integers, user elevations) is a short decimal, and the only
arithmetic performed on them (`slr + SURGES[surge]`, `float(e)`) stays in a
range where Python's float arithmetic and shortest `repr` agree with exact
decimal arithmetic and standard decimal rendering.

Side-effecting collaborators (`tidegates.flood_area`, `tidegates.assess_impact`,
`utils.concat_results`, `utils.join_results_to_baseline`,
`utils.cleanup_temp_results`, `utils.add_field_with_value`, the workspace /
overwrite-state context managers) live outside `src/`; following their
documented contracts they are modelled as emitted trace events (`Ev`), with a
`Backend` valuation choosing which fallible calls succeed.  Exceptions are
modelled with `Except`, with the trace of events emitted before the exception
kept alongside.
-/

/-- Shorthand: the character list of a string literal (embedding of a Python
string constant). -/
def pstr (s : String) : List Char := s.data

deriving instance DecidableEq for Except

/-! ## Exact decimal numbers

`Dec m e` denotes the rational number `m / 10 ^ e`.  A value is `Normal` when
the exponent is as small as possible; `normTo` (used by every constructor of
program values) establishes that invariant, which makes structural equality
coincide with numeric equality and makes the decimal rendering canonical
(Python's shortest-`repr` printing of these values). -/

/-- An exact decimal number: the value `m / 10 ^ e`. -/
structure Dec where
  m : Int
  e : Nat
deriving DecidableEq, Repr

/-- Strip factors of ten from the mantissa, lowering the exponent. -/
def normTo (m : Int) : Nat → Dec
  | 0 => ⟨m, 0⟩
  | e + 1 => if m % 10 = 0 then normTo (m / 10) e else ⟨m, e + 1⟩

/-- Canonical form of a decimal (also the model of Python's `float()`
conversion applied to a decimal literal). -/
def Dec.norm (d : Dec) : Dec := normTo d.m d.e

/-- A decimal whose exponent cannot be lowered further. -/
def Dec.Normal (d : Dec) : Prop := d.e = 0 ∨ ¬ (10:Int) ∣ d.m

instance (d : Dec) : Decidable d.Normal := by
  unfold Dec.Normal; infer_instance

/-- Embedding of an integer (e.g. a sea-level-rise value) as a decimal. -/
def Dec.ofInt (n : Int) : Dec := ⟨n, 0⟩

/-- Exact decimal addition (the model of Python's `+` on the program's
numeric values), producing a canonical result. -/
def Dec.add (a b : Dec) : Dec :=
  let e := max a.e b.e
  normTo (a.m * 10 ^ (e - a.e) + b.m * 10 ^ (e - b.e)) e

instance : Add Dec := ⟨Dec.add⟩

/-- The rational value denoted by a decimal. -/
def Dec.toRat (d : Dec) : ℚ := (d.m : ℚ) / 10 ^ d.e

/-! ## Decimal rendering (Python's `str` on the program's floats) -/

/-- The character of a decimal digit. -/
def digitToChar : Nat → Char
  | 0 => '0' | 1 => '1' | 2 => '2' | 3 => '3' | 4 => '4'
  | 5 => '5' | 6 => '6' | 7 => '7' | 8 => '8' | _ => '9'

/-- The digit denoted by a character (inverse of `digitToChar`). -/
def charToDigit (c : Char) : Nat := c.toNat - 48

/-- Little-endian base-10 digits, with explicit fuel for structural
recursion; `natDigits` supplies enough fuel. -/
def natDigitsAux : Nat → Nat → List Nat
  | 0, _ => []
  | fuel + 1, n => if n = 0 then [] else n % 10 :: natDigitsAux fuel (n / 10)

/-- Little-endian base-10 digits of a natural number (empty for zero). -/
def natDigits (n : Nat) : List Nat := natDigitsAux n n

/-- Base-10 rendering of a natural number. -/
def natChars (n : Nat) : List Char :=
  if n = 0 then ['0'] else ((natDigits n).map digitToChar).reverse

/-- Base-10 rendering of an integer. -/
def intChars (n : Int) : List Char :=
  if n < 0 then '-' :: natChars n.natAbs else natChars n.natAbs

/-- The fractional digits of `mfrac / 10 ^ e`, zero-padded on the left to
exactly `e` digits. -/
def fracChars (mfrac : Nat) (e : Nat) : List Char :=
  ((natDigits mfrac ++ List.replicate (e - (natDigits mfrac).length) 0).map
    digitToChar).reverse

/-- Python's `str()` of a (decimal-valued) float: sign, integer part, `'.'`,
fractional digits, printing `".0"` for integral values. -/
def pyFloatChars (d : Dec) : List Char :=
  let a := d.m.natAbs
  let sign : List Char := if d.m < 0 then ['-'] else []
  if d.e = 0 then sign ++ natChars a ++ ['.', '0']
  else sign ++ natChars (a / 10 ^ d.e) ++ '.' :: fracChars (a % 10 ^ d.e) d.e

/-! ## Path manipulation -/

/-- Index of the last occurrence of a character in a list, if any. -/
def lastIdxOf (c : Char) (p : List Char) : Option Nat :=
  (p.reverse.findIdx? (fun x => x = c)).map (fun i => p.length - 1 - i)

/-- Embedding of `os.path.splitext` (posix flavor): split off the extension
starting at the last dot of the basename, provided the basename has a
non-dot character before that dot. -/
def splitext (p : List Char) : List Char × List Char :=
  let sepIdx : Int := match lastIdxOf '/' p with | some i => (i : Int) | none => -1
  let dotIdx : Int := match lastIdxOf '.' p with | some i => (i : Int) | none => -1
  if sepIdx < dotIdx then
    let startIdx := (sepIdx + 1).toNat
    let body := (p.drop startIdx).take (dotIdx.toNat - startIdx)
    if body.any (fun c => c ≠ '.') then (p.take dotIdx.toNat, p.drop dotIdx.toNat)
    else (p, [])
  else (p, [])

/-- Embedding of `str.replace('.', '_')` (single-character pattern, so a
per-character map). -/
def dotToUnderscore (cs : List Char) : List Char :=
  cs.map fun c => if c = '.' then '_' else c

/-- The per-scenario temporary flood path of `_prep_flooder_input`:
`basename + str(elevation).replace('.', '_') + ext`. -/
def temp_fname (flood_output : List Char) (elevation : Dec) : List Char :=
  let be := splitext flood_output
  be.1 ++ dotToUnderscore (pyFloatChars elevation) ++ be.2

/-- Modelled from the spec: `utils.create_temp_filename` (not under `src/`;
§4.3 TempArtifactNamer, §4.6) derives a temp path by inserting the given
prefix immediately before the basename of the path; the engine's calls use
the prefixes `"_wetlands_"`, `"_buildings_"`, `"output_"` and (for the
aggregator's intermediate concatenation) the default `"_temp_"`. -/
def create_temp_filename (p : List Char) (pre : List Char) : List Char :=
  let k := match lastIdxOf '/' p with | some i => i + 1 | none => 0
  p.take k ++ pre ++ p.drop k

/-! ## Scenario generation (`SURGES`, `SEALEVELRISE`, `_make_scenarios`) -/

/-- The fixed ordered surge table of `toolbox.py`
(`SURGES = OrderedDict(MHHW=4.0); SURGES['10yr'] = 8.0; ...`). -/
def SURGES : List (String × Dec) :=
  [("MHHW", ⟨4, 0⟩), ("10yr", ⟨8, 0⟩), ("50yr", ⟨96, 1⟩), ("100yr", ⟨105, 1⟩)]

/-- `SEALEVELRISE = numpy.arange(7)`. -/
def SEALEVELRISE : List Int := [0, 1, 2, 3, 4, 5, 6]

/-- Ordered-dictionary lookup `SURGES[name]` (`none` models a `KeyError`). -/
def lookupSurge (name : String) : Option Dec :=
  (SURGES.find? (fun kv => kv.1 == name)).map (fun kv => kv.2)

/-- One scenario dictionary produced by `_make_scenarios`. -/
structure Scenario where
  elev : Option Dec
  surge_name : Option String
  surge_elev : Option Dec
  slr : Option Int
deriving DecidableEq, Repr

/-- The `elevation` entry of the parameter dictionary: absent (or `None`),
a scalar, or a list of values. -/
inductive ElevationInput
  | noElev
  | scalar (e : Dec)
  | listOf (es : List Dec)
deriving DecidableEq, Repr

/-- Embedding of `StandardScenarios._make_scenarios`: a scalar elevation is
wrapped into a one-element list; absent elevations select the standard
surge × sea-level-rise cross-product; otherwise one custom descriptor per
elevation (`float(e)` modelled by `Dec.norm`). -/
def _make_scenarios (input : ElevationInput) : List Scenario :=
  let elevations : Option (List Dec) :=
    match input with
    | .noElev => none
    | .scalar e => some [e]
    | .listOf es => some es
  match elevations with
  | none =>
      SURGES.flatMap fun sv =>
        SEALEVELRISE.map fun slr =>
          { elev := none, surge_name := some sv.1, surge_elev := some sv.2,
            slr := some slr }
  | some es =>
      es.map fun e =>
        { elev := some e.norm, surge_name := none, surge_elev := none,
          slr := none }

/-! ## `_prep_flooder_input` -/

/-- The exceptions `_prep_flooder_input` can raise: the explicit
`ValueError` for a missing `flood_output`, a `KeyError` from `SURGES[surge]`,
and a `TypeError` from `slr + SURGES[surge]` when `surge`/`slr` is `None`. -/
inductive PrepErr
  | missingFloodOutput
  | surgeKeyError
  | noneArithmetic
deriving DecidableEq, Repr

/-- Embedding of `StandardScenarios._prep_flooder_input`: resolve the final
elevation (`float(elev)` if given, else `float(slr + SURGES[surge])`), build
the progress title, and derive the temporary output path. -/
def _prep_flooder_input (elev : Option Dec) (surge : Option String)
    (slr : Option Int) (flood_output : Option (List Char)) :
    Except PrepErr (Dec × List Char × List Char) := do
  let (elevation, title) ←
    match elev with
    | none =>
        match surge, slr with
        | some sname, some r =>
            match lookupSurge sname with
            | some se =>
                let ev := Dec.ofInt r + se
                pure (ev.norm,
                  pstr "Analyzing flood elevation: " ++ pyFloatChars ev.norm ++
                  pstr " ft (" ++ sname.data ++ pstr ", " ++ intChars r ++ pstr ")")
            | none => Except.error PrepErr.surgeKeyError
        | _, _ => Except.error PrepErr.noneArithmetic
    | some ce =>
        let ev := ce.norm
        pure (ev, pstr "Analyzing flood elevation: " ++ pyFloatChars ev ++
          pstr " ft")
  match flood_output with
  | none => Except.error PrepErr.missingFloodOutput
  | some fo => pure (elevation, title, temp_fname fo elevation)

/-! ## Traces of collaborator calls

The engine's observable behavior is its sequence of calls to the external
GIS collaborators.  Each call is recorded as an event; fallible calls
(`flood_area`, `assess_impact`, `concat_results`,
`join_results_to_baseline`) consult a `Backend` valuation to decide whether
they succeed, and a failure propagates as a Python exception would. -/

/-- A field written by `utils.add_field_with_value`, with its Python type
and (for strings) maximum length. -/
inductive FieldSpec
  | floatField (name : List Char) (value : Dec)
  | strField (name : List Char) (value : List Char) (maxLen : Nat)
  | intField (name : List Char) (value : Int)
deriving DecidableEq, Repr

/-- One call to an external collaborator. -/
inductive Ev
  | showHeader (title : List Char)
  | floodArea (dem polygons idcol : List Char) (elevation : Dec)
      (filename : List Char)
  | addField (table : List Char) (field : FieldSpec)
  | assessImpact (floodsPath idcol : List Char)
      (wetlandsPath : Option (List Char)) (wetlandsOutput : List Char)
      (buildingsPath : Option (List Char)) (buildingsOutput : List Char)
  | loadData (p : List Char)
  | concat (out : List Char) (sources : List (List Char))
  | spatialJoin (out : List Char) (merged : List Char) (baseline : List Char)
  | delete (paths : List (List Char))
  | enterWorkspace (p : List Char)
  | setOverwrite (b : Bool)
  | exitOverwrite
  | exitWorkspace
deriving DecidableEq, Repr

/-- Which fallible collaborator calls succeed: the flood-extent and
impact-assessment calls are indexed by the scenario's position in the run,
the merge/join calls by their arguments. -/
structure Backend where
  floodOk : Nat → Bool
  assessOk : Nat → Bool
  concatOk : List Char → List (List Char) → Bool
  joinOk : List Char → Bool

/-- Errors propagating out of the engine (Python exceptions). -/
inductive EngErr
  | prep (e : PrepErr)
  | floodFailed (idx : Nat)
  | assessFailed (idx : Nat)
  | concatFailed (out : List Char)
  | joinFailed (out : List Char)
deriving DecidableEq, Repr

/-- Embedding of `StandardScenarios._add_scenario_columns`: the calls to
`utils.add_field_with_value` tagging a layer with `flood_elev` (float),
`surge` (string, length 10) and `slr` (int), each only when the
corresponding argument is not `None`. -/
def _add_scenario_columns (layer : List Char) (elev : Option Dec)
    (surge : Option String) (slr : Option Int) : List Ev :=
  (match elev with
   | some ev => [Ev.addField layer (FieldSpec.floatField (pstr "flood_elev") ev)]
   | none => []) ++
  (match surge with
   | some s => [Ev.addField layer (FieldSpec.strField (pstr "surge") s.data 10)]
   | none => []) ++
  (match slr with
   | some r => [Ev.addField layer (FieldSpec.intField (pstr "slr") r)]
   | none => [])

/-- The analysis parameters of `main_execute` (the `**params` dictionary as
produced by `_get_parameter_values` or passed by a direct caller).  Plain
`Option` fields collapse "key absent" and "value `None`" where the code
reads them with `params.get(key, None)` or treats `None` as absent;
`wetland_output` / `building_output` are read with a non-`None` default, so
for them `none` models an absent key. -/
structure Params where
  workspace : List Char
  dem : List Char
  polygons : List Char
  ID_column : List Char
  flood_output : Option (List Char)
  wetlands : Option (List Char)
  buildings : Option (List Char)
  wetland_output : Option (Option (List Char))
  building_output : Option (Option (List Char))
  elevation : ElevationInput

/-- Embedding of `StandardScenarios.analyze` for the scenario at position
`idx` of the run: resolve the inputs, announce the scenario, compute the
flood extent, tag it, assess impact, tag the wetlands result; returns the
emitted events and, on success, the `dataSource` paths of the flood,
wetlands and buildings layers. -/
def analyze (bk : Backend) (idx : Nat) (elev : Option Dec)
    (surge : Option String) (slr : Option Int) (P : Params) :
    List Ev × Except EngErr (List Char × Option (List Char) × Option (List Char)) :=
  match _prep_flooder_input elev surge slr P.flood_output with
  | .error e => ([], .error (.prep e))
  | .ok (elevation, title, floods_path) =>
    let pre := [Ev.showHeader title,
      Ev.floodArea P.dem P.polygons P.ID_column elevation floods_path]
    if bk.floodOk idx then
      let tagEvs := _add_scenario_columns floods_path (some elevation) surge slr
      let wl_path := create_temp_filename floods_path (pstr "_wetlands_")
      let bldg_path := create_temp_filename floods_path (pstr "_buildings_")
      let evs := pre ++ tagEvs ++
        [Ev.assessImpact floods_path P.ID_column P.wetlands wl_path
          P.buildings bldg_path]
      if bk.assessOk idx then
        let wtlnd := P.wetlands.map (fun _ => wl_path)
        let bldg := P.buildings.map (fun _ => bldg_path)
        let wlTag :=
          match wtlnd with
          | some w => _add_scenario_columns w (some elevation) surge slr
          | none => []
        (evs ++ wlTag, .ok (floods_path, wtlnd, bldg))
      else (evs, .error (.assessFailed idx))
    else (pre, .error (.floodFailed idx))

/-- The scenario loop of `main_execute`: run `analyze` on each scenario in
order (`idx` is the position of the first one), accumulating the flood
`dataSource` always and the wetlands/buildings ones only when the
corresponding input layer was supplied; the first exception aborts the
loop. -/
def runScenarios (bk : Backend) (P : Params) :
    List Scenario → Nat →
    List Ev × Except EngErr (List (List Char) × List (List Char) × List (List Char))
  | [], _ => ([], .ok ([], [], []))
  | s :: rest, idx =>
    match analyze bk idx s.elev s.surge_name s.slr P with
    | (evs, .error e) => (evs, .error e)
    | (evs, .ok (fp, wp, bp)) =>
      match runScenarios bk P rest (idx + 1) with
      | (evs', .error e) => (evs ++ evs', .error e)
      | (evs', .ok (fs, ws, bs)) =>
        (evs ++ evs',
         .ok (fp :: fs,
              (if P.wetlands.isSome then wp.toList else []) ++ ws,
              (if P.buildings.isSome then bp.toList else []) ++ bs))

/-- Embedding of `StandardScenarios.finish_results`: when an output path is
given, concatenate the results into it (via an intermediate file and a
spatial join against the baseline when a `sourcename` is given); then — in
all cases, even without an output path — delete the accumulated result
paths when `cleanup` is set. -/
def finish_results (bk : Backend) (outputname : Option (List Char))
    (results : List (List Char)) (sourcename : Option (List Char))
    (cleanup : Bool) : List Ev × Except EngErr Unit :=
  let step1 : List Ev × Except EngErr Unit :=
    match outputname with
    | none => ([], .ok ())
    | some out =>
      match sourcename with
      | some src =>
        let tmp := create_temp_filename out (pstr "_temp_")
        if bk.concatOk tmp results then
          if bk.joinOk out then
            ([Ev.concat tmp results, Ev.loadData tmp, Ev.loadData src,
              Ev.spatialJoin out tmp src, Ev.delete [tmp]], .ok ())
          else
            ([Ev.concat tmp results, Ev.loadData tmp, Ev.loadData src,
              Ev.spatialJoin out tmp src], .error (.joinFailed out))
        else ([Ev.concat tmp results], .error (.concatFailed tmp))
      | none =>
        if bk.concatOk out results then ([Ev.concat out results], .ok ())
        else ([Ev.concat out results], .error (.concatFailed out))
  match step1 with
  | (evs, .error e) => (evs, .error e)
  | (evs, .ok _) =>
    if cleanup then (evs ++ [Ev.delete results], .ok ()) else (evs, .ok ())

/-- Sequencing of trace-producing steps: an exception skips the rest but
keeps the events already emitted. -/
def andThen (x : List Ev × Except EngErr Unit)
    (f : Unit → List Ev × Except EngErr Unit) : List Ev × Except EngErr Unit :=
  match x with
  | (evs, .error e) => (evs, .error e)
  | (evs, .ok u) =>
    match f u with
    | (evs', r) => (evs ++ evs', r)

/-- Embedding of `StandardScenarios.main_execute`: inside the
workspace/overwrite scope, run every scenario, then merge the floods, the
wetlands (into `wetland_output`, defaulting to an `output_`-prefixed name
derived from the wetlands source) and the buildings likewise.  The scope is
exited on every path, exceptional or not (the `with` statement). -/
def main_execute (bk : Backend) (P : Params) : List Ev × Except EngErr Unit :=
  let body : List Ev × Except EngErr Unit :=
    match runScenarios bk P (_make_scenarios P.elevation) 0 with
    | (evs, .error e) => (evs, .error e)
    | (evs, .ok (all_floods, all_wetlands, all_buildings)) =>
      let after :=
        andThen (finish_results bk P.flood_output all_floods none true)
          (fun _ =>
            andThen
              (match P.wetlands with
               | none => ([], .ok ())
               | some w =>
                 let wtld_output := P.wetland_output.getD
                   (some (create_temp_filename w (pstr "output_")))
                 finish_results bk wtld_output all_wetlands (some w) true)
              (fun _ =>
                match P.buildings with
                | none => ([], .ok ())
                | some b =>
                  let bldg_output := P.building_output.getD
                    (some (create_temp_filename b (pstr "output_")))
                  finish_results bk bldg_output all_buildings (some b) true))
      (evs ++ after.1, after.2)
  (Ev.enterWorkspace P.workspace :: Ev.setOverwrite true :: body.1 ++
     [Ev.exitOverwrite, Ev.exitWorkspace],
   body.2)

/-! ## Trace observations -/

/-- Is an event an aggregation-stage call (merge, join or artifact
deletion)? -/
def isAgg : Ev → Bool
  | .concat _ _ => true
  | .spatialJoin _ _ _ => true
  | .delete _ => true
  | _ => false

/-- Is an event a flood-extent computation (`tidegates.flood_area` call)? -/
def isFloodEv : Ev → Bool
  | .floodArea _ _ _ _ _ => true
  | _ => false

/-- The number of flood-extent computations (`tidegates.flood_area` calls)
in a trace. -/
def floodCalls (evs : List Ev) : Nat := evs.countP isFloodEv

/-- All paths deleted by a trace. -/
def deletedPaths (evs : List Ev) : List (List Char) :=
  evs.flatMap fun e => match e with | .delete ps => ps | _ => []

/-- The fields added to a given table by a trace, in order. -/
def fieldsOn (table : List Char) (evs : List Ev) : List FieldSpec :=
  evs.filterMap fun e =>
    match e with
    | .addField t f => if t = table then some f else none
    | _ => none

/-! ## A fully permissive backend (used to instantiate theorems at concrete
inputs) -/

/-- A backend on which every collaborator call succeeds. -/
def bkAllOk : Backend :=
  { floodOk := fun _ => true, assessOk := fun _ => true,
    concatOk := fun _ _ => true, joinOk := fun _ => true }

/-! ## C1, C8, C10: the scenario generator -/

/-- C1: in standard mode (no elevation input) `_make_scenarios` returns
exactly 28 descriptors — the cross-product of the ordered surge table
{MHHW: 4.0, 10yr: 8.0, 50yr: 9.6, 100yr: 10.5} with sea-level rise 0..6, in
surge-major order following the table's insertion order, each with
`elev = None` and `surge_elev` the table value of its `surge_name`. -/
theorem make_scenarios_standard :
    _make_scenarios ElevationInput.noElev =
      [⟨none, some "MHHW", some ⟨4, 0⟩, some 0⟩,
       ⟨none, some "MHHW", some ⟨4, 0⟩, some 1⟩,
       ⟨none, some "MHHW", some ⟨4, 0⟩, some 2⟩,
       ⟨none, some "MHHW", some ⟨4, 0⟩, some 3⟩,
       ⟨none, some "MHHW", some ⟨4, 0⟩, some 4⟩,
       ⟨none, some "MHHW", some ⟨4, 0⟩, some 5⟩,
       ⟨none, some "MHHW", some ⟨4, 0⟩, some 6⟩,
       ⟨none, some "10yr", some ⟨8, 0⟩, some 0⟩,
       ⟨none, some "10yr", some ⟨8, 0⟩, some 1⟩,
       ⟨none, some "10yr", some ⟨8, 0⟩, some 2⟩,
       ⟨none, some "10yr", some ⟨8, 0⟩, some 3⟩,
       ⟨none, some "10yr", some ⟨8, 0⟩, some 4⟩,
       ⟨none, some "10yr", some ⟨8, 0⟩, some 5⟩,
       ⟨none, some "10yr", some ⟨8, 0⟩, some 6⟩,
       ⟨none, some "50yr", some ⟨96, 1⟩, some 0⟩,
       ⟨none, some "50yr", some ⟨96, 1⟩, some 1⟩,
       ⟨none, some "50yr", some ⟨96, 1⟩, some 2⟩,
       ⟨none, some "50yr", some ⟨96, 1⟩, some 3⟩,
       ⟨none, some "50yr", some ⟨96, 1⟩, some 4⟩,
       ⟨none, some "50yr", some ⟨96, 1⟩, some 5⟩,
       ⟨none, some "50yr", some ⟨96, 1⟩, some 6⟩,
       ⟨none, some "100yr", some ⟨105, 1⟩, some 0⟩,
       ⟨none, some "100yr", some ⟨105, 1⟩, some 1⟩,
       ⟨none, some "100yr", some ⟨105, 1⟩, some 2⟩,
       ⟨none, some "100yr", some ⟨105, 1⟩, some 3⟩,
       ⟨none, some "100yr", some ⟨105, 1⟩, some 4⟩,
       ⟨none, some "100yr", some ⟨105, 1⟩, some 5⟩,
       ⟨none, some "100yr", some ⟨105, 1⟩, some 6⟩] ∧
    (_make_scenarios ElevationInput.noElev).length = 4 * 7 := by
  constructor <;> decide

/-- C8: in custom mode with a non-empty list of elevations,
`_make_scenarios` returns one descriptor per input elevation, in input
order, with `elev = float(e)` and `surge_name`, `surge_elev`, `slr` all
`None`. -/
theorem make_scenarios_custom (es : List Dec) (hne : es ≠ []) :
    (_make_scenarios (ElevationInput.listOf es)).length = es.length ∧
    (_make_scenarios (ElevationInput.listOf es)).length ≠ 0 ∧
    ∀ i : Nat,
      (_make_scenarios (ElevationInput.listOf es))[i]? =
        (es[i]?).map fun e =>
          { elev := some e.norm, surge_name := none, surge_elev := none,
            slr := none } := by
  refine ⟨by simp [_make_scenarios], ?_, ?_⟩
  · simp [_make_scenarios, hne]
  · intro i
    simp [_make_scenarios]

/-- Witness for C8 at the input `[3.5, 4.0]`: two descriptors, order
preserved, `surge_name = None`. -/
theorem make_scenarios_custom_witness :
    (_make_scenarios (ElevationInput.listOf [⟨35, 1⟩, ⟨4, 0⟩])).length = 2 ∧
    (_make_scenarios (ElevationInput.listOf [⟨35, 1⟩, ⟨4, 0⟩])).length ≠ 0 ∧
    ∀ i : Nat,
      (_make_scenarios (ElevationInput.listOf [⟨35, 1⟩, ⟨4, 0⟩]))[i]? =
        (([⟨35, 1⟩, ⟨4, 0⟩] : List Dec)[i]?).map fun e =>
          { elev := some e.norm, surge_name := none, surge_elev := none,
            slr := none } :=
  make_scenarios_custom [⟨35, 1⟩, ⟨4, 0⟩] (by decide)

/-- C10: a scalar elevation input is wrapped into a one-element list:
`_make_scenarios` returns exactly one custom descriptor with
`elev = float(e)` and all standard-mode fields `None`, identical to the
result for the one-element list input. -/
theorem make_scenarios_scalar (e : Dec) :
    _make_scenarios (ElevationInput.scalar e) =
      [{ elev := some e.norm, surge_name := none, surge_elev := none,
         slr := none }] ∧
    _make_scenarios (ElevationInput.scalar e) =
      _make_scenarios (ElevationInput.listOf [e]) :=
  ⟨rfl, rfl⟩

/-! ## C2 (corrected): `finish_results` with `outputname = None` -/

/-- Counterexample to C2 as stated: with `outputPath = None`, a non-empty
results list and the default `cleanup = True`, `finish_results` still
deletes the results (the cleanup block sits outside the
`if outputname is not None` check), so the call is not a no-op. -/
theorem finish_results_none_counterexample :
    deletedPaths (finish_results bkAllOk none [pstr "a.shp"] none true).1 =
      [pstr "a.shp"] ∧
    deletedPaths (finish_results bkAllOk none [pstr "a.shp"] none true).1 ≠
      [] := by
  constructor <;> decide

/-- C2 (amended): with `outputPath = None`, `finish_results` performs no
concatenation, join, load or file creation and raises nothing; it is a
no-op only when `cleanup` is false — with `cleanup = True` it still deletes
exactly the paths in `results`. -/
theorem finish_results_none (bk : Backend) (results : List (List Char))
    (src : Option (List Char)) (cleanup : Bool) :
    (finish_results bk none results src cleanup).2 = .ok () ∧
    ((finish_results bk none results src cleanup).1.filter isAgg) =
      (if cleanup then [Ev.delete results] else []) ∧
    deletedPaths (finish_results bk none results src cleanup).1 =
      (if cleanup then results else []) := by
  cases cleanup <;>
    simp [finish_results, deletedPaths, isAgg]

/-! ## C6: `finish_results` with an output path and `cleanup = True` -/

/-- C6: with a non-`None` output path and `cleanup = True`, every path in
`results` gets deleted, by a deletion step that comes strictly after the
concatenation (and, when a baseline source is given, after the spatial join
against it); if the concatenation or join fails, nothing at all is
deleted.  This holds with and without a baseline join. -/
theorem finish_results_cleanup (bk : Backend) (out : List Char)
    (results : List (List Char)) (src : Option (List Char)) :
    ((finish_results bk (some out) results src true).2 = .ok () →
      (∀ p ∈ results,
          p ∈ deletedPaths (finish_results bk (some out) results src true).1) ∧
      ∃ pre,
        (finish_results bk (some out) results src true).1 =
          pre ++ [Ev.delete results] ∧
        (∃ t ss, Ev.concat t ss ∈ pre) ∧
        (∀ s, src = some s →
          Ev.spatialJoin out (create_temp_filename out (pstr "_temp_")) s ∈
            pre)) ∧
    ((finish_results bk (some out) results src true).2 ≠ .ok () →
      deletedPaths (finish_results bk (some out) results src true).1 = []) := by
  rcases src with _ | s
  · by_cases hc : bk.concatOk out results
    · refine ⟨fun _ => ⟨?_, [Ev.concat out results], ?_, ?_, ?_⟩, fun h => ?_⟩
      · intro p hp
        simp [finish_results, hc, deletedPaths, hp]
      · simp [finish_results, hc]
      · exact ⟨out, results, by simp⟩
      · intro s hs; cases hs
      · exact absurd (by simp [finish_results, hc]) h
    · refine ⟨fun hok => absurd hok (by simp [finish_results, hc]), fun _ => ?_⟩
      simp [finish_results, hc, deletedPaths]
  · by_cases hc : bk.concatOk (create_temp_filename out (pstr "_temp_")) results
    · by_cases hj : bk.joinOk out
      · refine ⟨fun _ => ⟨?_, ?_⟩, fun h => ?_⟩
        · intro p hp
          simp [finish_results, hc, hj, deletedPaths, hp]
        · refine ⟨[Ev.concat (create_temp_filename out (pstr "_temp_")) results,
            Ev.loadData (create_temp_filename out (pstr "_temp_")),
            Ev.loadData s,
            Ev.spatialJoin out (create_temp_filename out (pstr "_temp_")) s,
            Ev.delete [create_temp_filename out (pstr "_temp_")]], ?_, ?_, ?_⟩
          · simp [finish_results, hc, hj]
          · exact ⟨create_temp_filename out (pstr "_temp_"), results, by simp⟩
          · intro s' hs'
            cases hs'
            simp
        · exact absurd (by simp [finish_results, hc, hj]) h
      · refine ⟨fun hok => absurd hok (by simp [finish_results, hc, hj]),
          fun _ => ?_⟩
        simp [finish_results, hc, hj, deletedPaths]
    · refine ⟨fun hok => absurd hok (by simp [finish_results, hc]), fun _ => ?_⟩
      simp [finish_results, hc, deletedPaths]

/-- Witness for C6: a successful aggregation with a baseline source deletes
both result paths after the concatenation and the join. -/
theorem finish_results_cleanup_witness :
    (∀ p ∈ [pstr "f1.shp", pstr "f2.shp"],
        p ∈ deletedPaths
          (finish_results bkAllOk (some (pstr "o.shp"))
            [pstr "f1.shp", pstr "f2.shp"] (some (pstr "base.shp")) true).1) ∧
    ∃ pre,
      (finish_results bkAllOk (some (pstr "o.shp"))
          [pstr "f1.shp", pstr "f2.shp"] (some (pstr "base.shp")) true).1 =
        pre ++ [Ev.delete [pstr "f1.shp", pstr "f2.shp"]] ∧
      (∃ t ss, Ev.concat t ss ∈ pre) ∧
      (∀ s, (some (pstr "base.shp") : Option (List Char)) = some s →
        Ev.spatialJoin (pstr "o.shp")
            (create_temp_filename (pstr "o.shp") (pstr "_temp_")) s ∈ pre) :=
  (finish_results_cleanup bkAllOk (pstr "o.shp")
    [pstr "f1.shp", pstr "f2.shp"] (some (pstr "base.shp"))).1 (by decide)

/-! ## C4: elevation resolution in `_prep_flooder_input` -/

/-- Normalizing a decimal does not change its value. -/
theorem toRat_normTo : ∀ (e : Nat) (m : Int), (normTo m e).toRat = (m : ℚ) / 10 ^ e
  | 0, _ => rfl
  | e + 1, m => by
    by_cases h : m % 10 = 0
    · have hd : (10:Int) ∣ m := Int.dvd_of_emod_eq_zero h
      obtain ⟨c, hc⟩ := hd
      have h10 : m / 10 = c := by
        rw [hc]; exact Int.mul_ediv_cancel_left c (by norm_num)
      rw [show normTo m (e+1) = normTo (m / 10) e by simp [normTo, h], h10,
        toRat_normTo e c, hc]
      push_cast
      rw [pow_succ]
      field_simp
      ring
    · rw [show normTo m (e+1) = ⟨m, e+1⟩ by simp [normTo, h]]
      rfl

/-- `Dec.norm` preserves the denoted value. -/
theorem Dec.toRat_norm (d : Dec) : d.norm.toRat = d.toRat :=
  toRat_normTo d.e d.m

/-- `Dec.add` is addition of the denoted values. -/
theorem Dec.toRat_add (a b : Dec) : (a + b).toRat = a.toRat + b.toRat := by
  have ha : a.e ≤ max a.e b.e := le_max_left _ _
  have hb : b.e ≤ max a.e b.e := le_max_right _ _
  show (Dec.add a b).toRat = _
  rw [Dec.add, toRat_normTo]
  have key : (10:ℚ) ^ (max a.e b.e - a.e) * 10 ^ a.e = 10 ^ (max a.e b.e) := by
    rw [← pow_add, Nat.sub_add_cancel ha]
  have key2 : (10:ℚ) ^ (max a.e b.e - b.e) * 10 ^ b.e = 10 ^ (max a.e b.e) := by
    rw [← pow_add, Nat.sub_add_cancel hb]
  rw [Dec.toRat, Dec.toRat]
  push_cast
  field_simp
  linear_combination (a.m : ℚ) * 10 ^ b.e * key + (b.m : ℚ) * 10 ^ a.e * key2

/-- `Dec.ofInt` denotes the integer itself. -/
theorem Dec.toRat_ofInt (n : Int) : (Dec.ofInt n).toRat = (n : ℚ) := by
  simp [Dec.ofInt, Dec.toRat]

/-- C4: `_prep_flooder_input` resolves the final elevation to
`float(elev)` whenever an explicit elevation is given — independently of
`surge` and `slr` — and to `slr + SURGES[surge]` when it is not; the last
two conjuncts check that the `Dec` operations used (`norm`, `ofInt`, `+`)
denote exactly the identity and rational addition, so the resolved value is
the number the claim names. -/
theorem prep_flooder_elevation :
    (∀ (ce : Dec) (surge : Option String) (slr : Option Int) (fo : List Char),
      ((_prep_flooder_input (some ce) surge slr (some fo)).toOption.map
          (fun t => t.1)) = some ce.norm)
  ∧ (∀ (sname : String) (r : Int) (se : Dec) (fo : List Char),
      lookupSurge sname = some se →
      ((_prep_flooder_input none (some sname) (some r) (some fo)).toOption.map
          (fun t => t.1)) = some (Dec.ofInt r + se).norm)
  ∧ (∀ d : Dec, d.norm.toRat = d.toRat)
  ∧ (∀ (r : Int) (se : Dec),
      ((Dec.ofInt r + se).norm).toRat = (r : ℚ) + se.toRat) := by
  refine ⟨fun _ _ _ _ => rfl, fun sname r se fo h => ?_, Dec.toRat_norm,
    fun r se => ?_⟩
  · simp [_prep_flooder_input, h]
    exact ⟨_, _, rfl⟩
  · rw [Dec.toRat_norm, Dec.toRat_add, Dec.toRat_ofInt]

/-- Witness for C4: `elev = 5.25` resolves to `5.25` (whatever `surge` and
`slr` are), and `surge = "100yr"`, `slr = 2` resolves to `12.5`
(`10.5 + 2`). -/
theorem prep_flooder_elevation_witness :
    ((_prep_flooder_input (some ⟨525, 2⟩) (some "MHHW") (some 3)
        (some (pstr "flood_output.shp"))).toOption.map (fun t => t.1)) =
      some ⟨525, 2⟩ ∧
    lookupSurge "100yr" = some ⟨105, 1⟩ ∧
    ((_prep_flooder_input none (some "100yr") (some 2)
        (some (pstr "flood_output.shp"))).toOption.map (fun t => t.1)) =
      some ⟨125, 1⟩ ∧
    (⟨125, 1⟩ : Dec).toRat = (2 : ℚ) + (⟨105, 1⟩ : Dec).toRat :=
  ⟨prep_flooder_elevation.1 ⟨525, 2⟩ (some "MHHW") (some 3) (pstr "flood_output.shp"),
   by decide,
   prep_flooder_elevation.2.1 "100yr" 2 ⟨105, 1⟩ (pstr "flood_output.shp")
     (by decide),
   prep_flooder_elevation.2.2.2 2 ⟨105, 1⟩⟩

/-! ## C7: scenario tagging in `analyze` -/

/-- Inserting a non-empty prefix lengthens a path. -/
theorem create_temp_filename_length (p pre : List Char) :
    (create_temp_filename p pre).length = p.length + pre.length := by
  unfold create_temp_filename
  have h := congrArg List.length (List.take_append_drop
    (match lastIdxOf '/' p with | some i => i + 1 | none => 0) p)
  simp [List.length_append] at h ⊢
  omega

/-- A temp path derived with a non-empty prefix differs from the path it
was derived from. -/
theorem create_temp_filename_ne (p pre : List Char) (h : pre ≠ []) :
    create_temp_filename p pre ≠ p := by
  intro he
  have hl := congrArg List.length he
  rw [create_temp_filename_length] at hl
  have : pre.length = 0 := by omega
  exact h (List.length_eq_zero.mp this)

/-- C7: after the flood-extent computation, `analyze` tags the flood
layer's attribute table with a float `flood_elev` field in every mode, and
with the string `surge` field (maximum length 10) and the integer `slr`
field only in standard mode (descriptor with `surge` and `slr` set); in
custom mode `flood_elev` is the only field added to the flood layer. -/
theorem analyze_scenario_tagging (bk : Backend) (idx : Nat) (P : Params)
    (fo : List Char) (hfo : P.flood_output = some fo)
    (hfl : bk.floodOk idx = true) (has : bk.assessOk idx = true) :
    (∀ ce : Dec,
      fieldsOn (temp_fname fo ce.norm)
          (analyze bk idx (some ce) none none P).1 =
        [FieldSpec.floatField (pstr "flood_elev") ce.norm])
  ∧ (∀ (sname : String) (r : Int) (se : Dec), lookupSurge sname = some se →
      fieldsOn (temp_fname fo (Dec.ofInt r + se).norm)
          (analyze bk idx none (some sname) (some r) P).1 =
        [FieldSpec.floatField (pstr "flood_elev") (Dec.ofInt r + se).norm,
         FieldSpec.strField (pstr "surge") sname.data 10,
         FieldSpec.intField (pstr "slr") r]) := by
  constructor
  · intro ce
    have hne := create_temp_filename_ne (temp_fname fo ce.norm)
      (pstr "_wetlands_") (by decide)
    rcases hw : P.wetlands with _ | w <;>
      simp [analyze, _prep_flooder_input, hfo, hfl, has, hw, fieldsOn,
        _add_scenario_columns, hne, pure, Except.pure, Bind.bind, Except.bind]
  · intro sname r se hs
    have hne := create_temp_filename_ne (temp_fname fo (Dec.ofInt r + se).norm)
      (pstr "_wetlands_") (by decide)
    rcases hw : P.wetlands with _ | w <;>
      simp [analyze, _prep_flooder_input, hfo, hfl, has, hw, hs, fieldsOn,
        _add_scenario_columns, hne, pure, Except.pure, Bind.bind, Except.bind]

/-- A concrete parameter record used to instantiate engine theorems. -/
def pExample : Params :=
  { workspace := pstr "W", dem := pstr "dem", polygons := pstr "zones.shp",
    ID_column := pstr "GID", flood_output := some (pstr "floods.shp"),
    wetlands := some (pstr "wetlands.shp"),
    buildings := some (pstr "buildings.shp"),
    wetland_output := none, building_output := none,
    elevation := ElevationInput.noElev }

/-- Witness for C7: with elevation 5.25 in custom mode only `flood_elev`
is written to the flood layer; with `("100yr", 2)` in standard mode
`flood_elev`, `surge` (length 10) and `slr` are written. -/
theorem analyze_scenario_tagging_witness :
    fieldsOn (temp_fname (pstr "floods.shp") (⟨525, 2⟩ : Dec).norm)
        (analyze bkAllOk 0 (some ⟨525, 2⟩) none none pExample).1 =
      [FieldSpec.floatField (pstr "flood_elev") (⟨525, 2⟩ : Dec).norm] ∧
    fieldsOn (temp_fname (pstr "floods.shp") (Dec.ofInt 2 + ⟨105, 1⟩).norm)
        (analyze bkAllOk 0 none (some "100yr") (some 2) pExample).1 =
      [FieldSpec.floatField (pstr "flood_elev") (Dec.ofInt 2 + ⟨105, 1⟩).norm,
       FieldSpec.strField (pstr "surge") "100yr".data 10,
       FieldSpec.intField (pstr "slr") 2] :=
  ⟨(analyze_scenario_tagging bkAllOk 0 pExample (pstr "floods.shp")
      rfl rfl rfl).1 ⟨525, 2⟩,
   (analyze_scenario_tagging bkAllOk 0 pExample (pstr "floods.shp")
      rfl rfl rfl).2 "100yr" 2 ⟨105, 1⟩ (by decide)⟩

/-! ## C3: abort semantics of the scenario loop -/

/-- A scenario descriptor on which `_prep_flooder_input` cannot raise:
either a custom elevation is present, or the surge name is a key of
`SURGES` and `slr` is present. -/
def scenarioWF (s : Scenario) : Bool :=
  s.elev.isSome ||
    (match s.surge_name, s.slr with
     | some n, some _ => (lookupSurge n).isSome
     | _, _ => false)

/-- Every descriptor produced by `_make_scenarios` is well-formed. -/
theorem make_scenarios_wf (inp : ElevationInput) :
    ∀ s ∈ _make_scenarios inp, scenarioWF s = true := by
  cases inp with
  | noElev => decide
  | scalar e =>
      intro s hs
      simp [_make_scenarios] at hs
      subst hs; rfl
  | listOf es =>
      intro s hs
      simp [_make_scenarios] at hs
      obtain ⟨e, _, he⟩ := hs
      subst he; rfl

/-- Tagging emits neither flood-extent calls nor aggregation calls. -/
theorem add_cols_not_flood (t : List Char) (e : Option Dec) (s : Option String)
    (r : Option Int) :
    ∀ ev ∈ _add_scenario_columns t e s r,
      isFloodEv ev = false ∧ isAgg ev = false := by
  rcases e <;> rcases s <;> rcases r <;>
    simp [_add_scenario_columns, isFloodEv, isAgg]

/-- `analyze` never emits an aggregation call. -/
theorem analyze_noAgg (bk : Backend) (idx : Nat) (el : Option Dec)
    (sn : Option String) (r : Option Int) (P : Params) :
    (analyze bk idx el sn r P).1.filter isAgg = [] := by
  rcases hp : _prep_flooder_input el sn r P.flood_output with e | t
  · simp [analyze, hp]
  · obtain ⟨elv, ti, fp⟩ := t
    have h1 := fun ev hev => (add_cols_not_flood fp (some elv) sn r ev hev).2
    cases hb1 : bk.floodOk idx
    · simp [analyze, hp, hb1, isAgg]
    · cases hb2 : bk.assessOk idx
      · simp [analyze, hp, hb1, hb2, isAgg, List.filter_append,
          List.filter_eq_nil_iff.mpr (by simpa using h1)]
      · rcases hw : P.wetlands with _ | w <;>
          simp [analyze, hp, hb1, hb2, hw, isAgg, List.filter_append,
            List.filter_eq_nil_iff.mpr (by simpa using h1),
            List.filter_eq_nil_iff.mpr (by
              simpa using fun ev hev =>
                (add_cols_not_flood (create_temp_filename fp (pstr "_wetlands_"))
                  (some elv) sn r ev hev).2)]

/-- When its input resolution succeeds, `analyze` performs exactly one
flood-extent call and succeeds exactly when both backend stages do. -/
theorem analyze_spec_aux (bk : Backend) (idx : Nat) (el : Option Dec)
    (sn : Option String) (rr : Option Int) (P : Params)
    (hp : (_prep_flooder_input el sn rr P.flood_output).isOk = true) :
    floodCalls (analyze bk idx el sn rr P).1 = 1 ∧
    (analyze bk idx el sn rr P).2.isOk = (bk.floodOk idx && bk.assessOk idx) := by
  rcases hpr : _prep_flooder_input el sn rr P.flood_output with e | t
  · rw [hpr] at hp; simp [Except.isOk, Except.toBool] at hp
  obtain ⟨elv, ti, fp⟩ := t
  have h1 : (_add_scenario_columns fp (some elv) sn rr).countP isFloodEv = 0 :=
    List.countP_eq_zero.mpr fun ev hev => by
      simp [(add_cols_not_flood fp (some elv) sn rr ev hev).1]
  cases hb1 : bk.floodOk idx
  · simp [analyze, hpr, hb1, floodCalls, isFloodEv, Except.isOk, Except.toBool]
  · cases hb2 : bk.assessOk idx
    · simp [analyze, hpr, hb1, hb2, floodCalls, List.countP_append, h1,
        isFloodEv, Except.isOk, Except.toBool]
    · have h2 : (_add_scenario_columns (create_temp_filename fp (pstr "_wetlands_"))
          (some elv) sn rr).countP isFloodEv = 0 :=
        List.countP_eq_zero.mpr fun ev hev => by
          simp [(add_cols_not_flood _ (some elv) sn rr ev hev).1]
      rcases hw : P.wetlands with _ | w <;>
        simp [analyze, hpr, hb1, hb2, hw, floodCalls, List.countP_append, h1, h2,
          isFloodEv, Except.isOk, Except.toBool]

/-- `analyze` on any well-formed scenario: one flood-extent call, success
iff both backend stages succeed. -/
theorem analyze_spec (bk : Backend) (idx : Nat) (s : Scenario) (P : Params)
    (fo : List Char) (hfo : P.flood_output = some fo)
    (hwf : scenarioWF s = true) :
    floodCalls (analyze bk idx s.elev s.surge_name s.slr P).1 = 1 ∧
    (analyze bk idx s.elev s.surge_name s.slr P).2.isOk =
      (bk.floodOk idx && bk.assessOk idx) := by
  rcases he : s.elev with _ | e
  · rcases hn : s.surge_name with _ | n
    · rw [scenarioWF, he, hn] at hwf; simp at hwf
    · rcases hr : s.slr with _ | r
      · rw [scenarioWF, he, hn, hr] at hwf; simp at hwf
      · rcases hl : lookupSurge n with _ | se
        · rw [scenarioWF, he, hn, hr] at hwf; simp [hl] at hwf
        · refine analyze_spec_aux bk idx none (some n) (some r) P ?_
          rw [hfo]
          simp [_prep_flooder_input, hl, pure, Except.pure, Bind.bind,
            Except.bind, Except.isOk, Except.toBool]
  · refine analyze_spec_aux bk idx (some e) s.surge_name s.slr P ?_
    rw [hfo]
    simp [_prep_flooder_input, pure, Except.pure, Bind.bind, Except.bind,
      Except.isOk, Except.toBool]

/-- The scenario loop emits no aggregation calls, ever. -/
theorem runScenarios_noAgg (bk : Backend) (P : Params) :
    ∀ (L : List Scenario) (i : Nat),
      ((runScenarios bk P L i).1.filter isAgg) = []
  | [], _ => by simp [runScenarios]
  | s :: rest, i => by
    have hA := analyze_noAgg bk i s.elev s.surge_name s.slr P
    rcases ha : analyze bk i s.elev s.surge_name s.slr P with ⟨evs, r⟩
    rw [ha] at hA
    rcases r with e | trip
    · simp [runScenarios, ha, hA]
    · obtain ⟨fp, wp, bp⟩ := trip
      have hR := runScenarios_noAgg bk P rest (i + 1)
      rcases hrs : runScenarios bk P rest (i + 1) with ⟨evs', r'⟩
      rw [hrs] at hR
      rcases r' with e' | acc
      · simp [runScenarios, ha, hrs, List.filter_append, hA, hR]
      · obtain ⟨fs, ws, bs⟩ := acc
        simp [runScenarios, ha, hrs, List.filter_append, hA, hR]

/-- If the backend first fails at position `f` of the loop, the loop fails
and performs exactly `f - i + 1` flood-extent calls (the scenarios before
`f`, plus the failing one; none after). -/
theorem runScenarios_abort (bk : Backend) (P : Params) (fo : List Char)
    (hfo : P.flood_output = some fo) :
    ∀ (L : List Scenario) (i f : Nat),
      (∀ s ∈ L, scenarioWF s = true) →
      i ≤ f → f < i + L.length →
      (∀ j, i ≤ j → j < f → bk.floodOk j = true ∧ bk.assessOk j = true) →
      (bk.floodOk f = false ∨ bk.assessOk f = false) →
      (runScenarios bk P L i).2.isOk = false ∧
      floodCalls (runScenarios bk P L i).1 = f - i + 1
  | [], i, f => by
    intro _ hif hlt _ _
    simp at hlt
    omega
  | s :: rest, i, f => by
    intro hwf hif hlt hpre hfail
    have hs := analyze_spec bk i s P fo hfo (hwf s (by simp))
    rcases ha : analyze bk i s.elev s.surge_name s.slr P with ⟨evs, r⟩
    rw [ha] at hs
    by_cases hieq : i = f
    · subst hieq
      have hbad : (bk.floodOk i && bk.assessOk i) = false := by
        rcases hfail with h | h <;> simp [h]
      have hr : r.isOk = false := by rw [hs.2, hbad]
      rcases r with e | trip
      · refine ⟨by simp [runScenarios, ha, Except.isOk, Except.toBool], ?_⟩
        have h1 : floodCalls evs = 1 := hs.1
        simp only [runScenarios, ha]
        omega
      · simp [Except.isOk, Except.toBool] at hr
    · have hilt : i < f := by omega
      have hok := hpre i (le_refl i) hilt
      have hr : r.isOk = true := by rw [hs.2, hok.1, hok.2]; rfl
      rcases r with e | trip
      · simp [Except.isOk, Except.toBool] at hr
      · obtain ⟨fp, wp, bp⟩ := trip
        have hIH := runScenarios_abort bk P fo hfo rest (i + 1) f
          (fun s hsm => hwf s (by simp [hsm]))
          (by omega) (by simp at hlt ⊢; omega)
          (fun j hj1 hj2 => hpre j (by omega) hj2) hfail
        rcases hrs : runScenarios bk P rest (i + 1) with ⟨evs', r'⟩
        rw [hrs] at hIH
        rcases r' with e' | acc
        · refine ⟨by simp [runScenarios, ha, hrs, Except.isOk, Except.toBool], ?_⟩
          have h1 : floodCalls evs = 1 := hs.1
          have h2 : floodCalls evs' = f - (i + 1) + 1 := hIH.2
          simp only [runScenarios, ha, hrs]
          simp only [floodCalls, List.countP_append] at h1 h2 ⊢
          omega
        · simp [Except.isOk, Except.toBool] at hIH

/-- C3: if the flood-extent computation or the impact assessment first
fails at position `f` of the run (0-based; the `f+1`-st scenario), then
`main_execute` aborts with that error: no scenario after `f` is started
(exactly `f + 1` flood-extent calls happen), no aggregation call
(concatenate, spatial join or delete) ever occurs — so the `f` previously
created temporary artifacts are never deleted — and the workspace and
overwrite-policy scope is still exited on that path. -/
theorem main_execute_abort (bk : Backend) (P : Params) (fo : List Char) (f : Nat)
    (hfo : P.flood_output = some fo)
    (hlen : f < (_make_scenarios P.elevation).length)
    (hpre : ∀ j, j < f → bk.floodOk j = true ∧ bk.assessOk j = true)
    (hfail : bk.floodOk f = false ∨ bk.assessOk f = false) :
    (main_execute bk P).2.isOk = false ∧
    (main_execute bk P).1.filter isAgg = [] ∧
    floodCalls (main_execute bk P).1 = f + 1 ∧
    ∃ mid, (main_execute bk P).1 =
      Ev.enterWorkspace P.workspace :: Ev.setOverwrite true ::
        (mid ++ [Ev.exitOverwrite, Ev.exitWorkspace]) := by
  have habort := runScenarios_abort bk P fo hfo (_make_scenarios P.elevation) 0 f
    (make_scenarios_wf P.elevation) (Nat.zero_le f) (by omega)
    (fun j _ hj2 => hpre j hj2) hfail
  have hnoagg := runScenarios_noAgg bk P (_make_scenarios P.elevation) 0
  rcases hrs : runScenarios bk P (_make_scenarios P.elevation) 0 with ⟨evs, r⟩
  rw [hrs] at habort hnoagg
  rcases r with e | acc
  · refine ⟨?_, ?_, ?_, evs, ?_⟩
    · simp [main_execute, hrs, Except.isOk, Except.toBool]
    · simp [main_execute, hrs, List.filter_append, isAgg]
      simpa using hnoagg
    · have h1 : floodCalls evs = f - 0 + 1 := habort.2
      simp only [floodCalls] at h1
      simp [main_execute, hrs, floodCalls, List.countP_append, isFloodEv]
      omega
    · simp [main_execute, hrs]
  · simp [Except.isOk, Except.toBool] at habort

/-- A backend whose flood-extent stage fails on the fifth scenario. -/
def bkFailAt4 : Backend :=
  { floodOk := fun i => decide (i < 4), assessOk := fun _ => true,
    concatOk := fun _ _ => true, joinOk := fun _ => true }

/-- A standard-mode parameter record with no wetlands or buildings. -/
def pStdNoLayers : Params :=
  { workspace := pstr "W", dem := pstr "dem", polygons := pstr "zones.shp",
    ID_column := pstr "GID", flood_output := some (pstr "floods.shp"),
    wetlands := none, buildings := none,
    wetland_output := none, building_output := none,
    elevation := ElevationInput.noElev }

/-- Witness for C3 (the spec's own failure scenario): the hydrology stage
fails on the 5th of the 28 standard scenarios, so the run aborts after 5
flood-extent calls, with no aggregation call and a properly exited
workspace scope. -/
theorem main_execute_abort_witness :
    (main_execute bkFailAt4 pStdNoLayers).2.isOk = false ∧
    (main_execute bkFailAt4 pStdNoLayers).1.filter isAgg = [] ∧
    floodCalls (main_execute bkFailAt4 pStdNoLayers).1 = 5 ∧
    ∃ mid, (main_execute bkFailAt4 pStdNoLayers).1 =
      Ev.enterWorkspace pStdNoLayers.workspace :: Ev.setOverwrite true ::
        (mid ++ [Ev.exitOverwrite, Ev.exitWorkspace]) :=
  main_execute_abort bkFailAt4 pStdNoLayers (pstr "floods.shp") 4 rfl (by decide)
    (fun j hj => ⟨by simp [bkFailAt4]; omega, rfl⟩) (Or.inl (by decide))

/-! ## C9: derived wetlands/buildings output paths -/

/-- C9: when a wetlands (resp. buildings) source layer was supplied but the
corresponding output-path key is absent from the parameters,
`main_execute` derives the aggregation output path by prepending `output_`
to the source path's basename and aggregates the accumulated per-scenario
results into it (concatenating them into the derived path's temp file and
spatially joining against the source). -/
theorem main_execute_derived_outputs (bk : Backend) (P : Params)
    (fo w : List Char) (fls wts bls : List (List Char))
    (hfo : P.flood_output = some fo)
    (hw : P.wetlands = some w)
    (hwo : P.wetland_output = none)
    (hrun : (runScenarios bk P (_make_scenarios P.elevation) 0).2 =
      .ok (fls, wts, bls))
    (hc : ∀ t ss, bk.concatOk t ss = true)
    (hj : ∀ t, bk.joinOk t = true) :
    (Ev.concat
        (create_temp_filename (create_temp_filename w (pstr "output_"))
          (pstr "_temp_")) wts ∈ (main_execute bk P).1 ∧
      Ev.spatialJoin (create_temp_filename w (pstr "output_"))
        (create_temp_filename (create_temp_filename w (pstr "output_"))
          (pstr "_temp_")) w ∈ (main_execute bk P).1) ∧
    (∀ b, P.buildings = some b → P.building_output = none →
      Ev.concat
        (create_temp_filename (create_temp_filename b (pstr "output_"))
          (pstr "_temp_")) bls ∈ (main_execute bk P).1 ∧
      Ev.spatialJoin (create_temp_filename b (pstr "output_"))
        (create_temp_filename (create_temp_filename b (pstr "output_"))
          (pstr "_temp_")) b ∈ (main_execute bk P).1) := by
  rcases hrs : runScenarios bk P (_make_scenarios P.elevation) 0 with ⟨evs, r⟩
  rw [hrs] at hrun
  simp at hrun
  subst hrun
  constructor
  · constructor <;>
      simp [main_execute, hrs, finish_results, andThen, hc, hj, hfo, hw, hwo,
        List.mem_append]
  · intro b hb hbo
    constructor <;>
      simp [main_execute, hrs, finish_results, andThen, hc, hj, hfo, hw, hwo,
        hb, hbo, List.mem_append]

/-- A custom-mode parameter record with wetlands and buildings supplied and
both output-path keys absent. -/
def pCustomBoth : Params :=
  { workspace := pstr "W", dem := pstr "dem", polygons := pstr "zones.shp",
    ID_column := pstr "GID", flood_output := some (pstr "floods.shp"),
    wetlands := some (pstr "wetlands.shp"),
    buildings := some (pstr "buildings.shp"),
    wetland_output := none, building_output := none,
    elevation := ElevationInput.listOf [⟨525, 2⟩] }

/-- Witness for C9: on a one-scenario run with sources `wetlands.shp` and
`buildings.shp` and no output paths, the engine concatenates into the temp
file of `output_wetlands.shp` / `output_buildings.shp` and joins into those
derived paths. -/
theorem main_execute_derived_outputs_witness :
    (Ev.concat
        (create_temp_filename
          (create_temp_filename (pstr "wetlands.shp") (pstr "output_"))
          (pstr "_temp_")) [pstr "_wetlands_floods5_25.shp"] ∈
        (main_execute bkAllOk pCustomBoth).1 ∧
      Ev.spatialJoin (create_temp_filename (pstr "wetlands.shp") (pstr "output_"))
        (create_temp_filename
          (create_temp_filename (pstr "wetlands.shp") (pstr "output_"))
          (pstr "_temp_")) (pstr "wetlands.shp") ∈
        (main_execute bkAllOk pCustomBoth).1) ∧
    (Ev.concat
        (create_temp_filename
          (create_temp_filename (pstr "buildings.shp") (pstr "output_"))
          (pstr "_temp_")) [pstr "_buildings_floods5_25.shp"] ∈
        (main_execute bkAllOk pCustomBoth).1 ∧
      Ev.spatialJoin
        (create_temp_filename (pstr "buildings.shp") (pstr "output_"))
        (create_temp_filename
          (create_temp_filename (pstr "buildings.shp") (pstr "output_"))
          (pstr "_temp_")) (pstr "buildings.shp") ∈
        (main_execute bkAllOk pCustomBoth).1) :=
  ⟨(main_execute_derived_outputs bkAllOk pCustomBoth (pstr "floods.shp")
      (pstr "wetlands.shp") [pstr "floods5_25.shp"]
      [pstr "_wetlands_floods5_25.shp"] [pstr "_buildings_floods5_25.shp"]
      rfl rfl rfl (by decide) (fun _ _ => rfl) (fun _ => rfl)).1,
   (main_execute_derived_outputs bkAllOk pCustomBoth (pstr "floods.shp")
      (pstr "wetlands.shp") [pstr "floods5_25.shp"]
      [pstr "_wetlands_floods5_25.shp"] [pstr "_buildings_floods5_25.shp"]
      rfl rfl rfl (by decide) (fun _ _ => rfl) (fun _ => rfl)).2
     (pstr "buildings.shp") rfl rfl⟩

/-! ## C5: the temporary flood path and its injectivity -/


/-- The value of a little-endian digit list. -/
def undigits : List Nat → Nat
  | [] => 0
  | d :: ds => d + 10 * undigits ds

/-- The value of a big-endian string of digit characters. -/
def parseBE (cs : List Char) : Nat :=
  cs.foldl (fun acc c => 10 * acc + charToDigit c) 0

/-- The inverse substitution of `dotToUnderscore` (proof machinery). -/
def underscoreToDot (cs : List Char) : List Char :=
  cs.map fun c => if c = '_' then '.' else c

/-- Left inverse of `pyFloatChars` on non-negative decimals (proof
machinery): split at the dot and recombine integer and fractional parts. -/
def parsePyNN (cs : List Char) : Dec :=
  let A := cs.takeWhile (fun c => c ≠ '.')
  let F := (cs.dropWhile (fun c => c ≠ '.')).drop 1
  if F = ['0'] then ⟨(parseBE A : Int), 0⟩
  else ⟨(parseBE A * 10 ^ F.length + parseBE F : Nat), F.length⟩

/-- Left inverse of `pyFloatChars` (proof machinery): strip the sign,
then parse. -/
def parsePy (cs : List Char) : Dec :=
  if cs.head? = some '-' then
    ⟨-(parsePyNN (cs.drop 1)).m, (parsePyNN (cs.drop 1)).e⟩
  else parsePyNN cs

/-- `charToDigit` inverts `digitToChar` on digits. -/
theorem charToDigit_digitToChar {d : Nat} (h : d < 10) :
    charToDigit (digitToChar d) = d := by
  interval_cases d <;> rfl

/-- Digit characters are not `'_'`, `'.'` or `'-'`. -/
theorem digitToChar_ne {d : Nat} (h : d < 10) :
    digitToChar d ≠ '_' ∧ digitToChar d ≠ '.' ∧ digitToChar d ≠ '-' := by
  interval_cases d <;> refine ⟨by decide, by decide, by decide⟩

/-- All base-10 digits are below ten. -/
theorem mem_natDigitsAux_lt : ∀ (fuel n : Nat), ∀ d ∈ natDigitsAux fuel n, d < 10
  | 0, _ => by simp [natDigitsAux]
  | fuel + 1, n => by
    intro d hd
    by_cases hn : n = 0
    · simp [natDigitsAux, hn] at hd
    · rw [natDigitsAux, if_neg hn] at hd
      rcases List.mem_cons.mp hd with h | h
      · subst h; exact Nat.mod_lt _ (by norm_num)
      · exact mem_natDigitsAux_lt fuel (n / 10) d h

/-- With enough fuel, `natDigitsAux` is a section of `undigits`. -/
theorem undigits_natDigitsAux : ∀ (fuel n : Nat), n ≤ fuel →
    undigits (natDigitsAux fuel n) = n
  | 0, n => by
    intro h
    interval_cases n
    simp [natDigitsAux, undigits]
  | fuel + 1, n => by
    intro h
    by_cases hn : n = 0
    · simp [natDigitsAux, hn, undigits]
    · rw [natDigitsAux, if_neg hn, undigits,
        undigits_natDigitsAux fuel (n / 10) (by omega)]
      omega

/-- `natDigits` is a section of `undigits`. -/
theorem undigits_natDigits (n : Nat) : undigits (natDigits n) = n :=
  undigits_natDigitsAux n n (le_refl n)

/-- A number below `10 ^ k` has at most `k` digits. -/
theorem natDigitsAux_length : ∀ (fuel k n : Nat), n ≤ fuel → n < 10 ^ k →
    (natDigitsAux fuel n).length ≤ k
  | 0, _, n => by
    intro h _
    interval_cases n
    simp [natDigitsAux]
  | fuel + 1, k, n => by
    intro h hk
    by_cases hn : n = 0
    · simp [natDigitsAux, hn]
    · rw [natDigitsAux, if_neg hn]
      rcases k with _ | k
    
      · simp at hk; omega
      · have h1 : n / 10 < 10 ^ k :=
          (Nat.div_lt_iff_lt_mul (by norm_num)).mpr (by
            rw [← pow_succ] at *; omega)
        have := natDigitsAux_length fuel k (n / 10) (by omega) h1
        simp
        omega

/-- Evaluating a rendered digit list, with accumulator. -/
theorem foldl_digits : ∀ (ds : List Nat) (a : Nat), (∀ d ∈ ds, d < 10) →
    List.foldl (fun acc c => 10 * acc + charToDigit c) a
      ((ds.map digitToChar).reverse) = a * 10 ^ ds.length + undigits ds := by
  intro ds
  induction ds with
  | nil => intro a _; simp [undigits]
  | cons d ds ih =>
      intro a hlt
      have hd : d < 10 := hlt d (by simp)
      have hrest : ∀ x ∈ ds, x < 10 := fun x hx => hlt x (by simp [hx])
      simp only [List.map_cons, List.reverse_cons, List.foldl_append,
        ih a hrest]
      simp [undigits, charToDigit_digitToChar hd, pow_succ]
      ring

/-- `parseBE` inverts `natChars`. -/
theorem parseBE_natChars (n : Nat) : parseBE (natChars n) = n := by
  by_cases hn : n = 0
  · subst hn; rfl
  · rw [natChars, if_neg hn, parseBE,
      foldl_digits (natDigits n) 0 (mem_natDigitsAux_lt n n),
      undigits_natDigits]
    simp

/-- A run of zero digits has value zero. -/
theorem undigits_replicate_zero (j : Nat) :
    undigits (List.replicate j 0) = 0 := by
  induction j with
  | zero => rfl
  | succ j ih => simp [List.replicate, undigits, ih]

/-- Trailing zero digits (little-endian) do not change the value. -/
theorem undigits_append_zeros (ds : List Nat) (j : Nat) :
    undigits (ds ++ List.replicate j 0) = undigits ds := by
  induction ds with
  | nil => simp [undigits, undigits_replicate_zero]
  | cons d ds ih => simp [undigits, ih]

/-- The fractional rendering has exactly `e` digits. -/
theorem fracChars_length {m e : Nat} (h : m < 10 ^ e) :
    (fracChars m e).length = e := by
  have hlen : (natDigits m).length ≤ e := natDigitsAux_length m e m (le_refl m) h
  simp [fracChars]
  omega

/-- `parseBE` inverts `fracChars`. -/
theorem parseBE_fracChars {m e : Nat} (h : m < 10 ^ e) :
    parseBE (fracChars m e) = m := by
  have hlt : ∀ d ∈ natDigits m ++
      List.replicate (e - (natDigits m).length) 0, d < 10 := by
    intro d hd
    rcases List.mem_append.mp hd with h1 | h1
    · exact mem_natDigitsAux_lt m m d h1
    · rw [List.eq_of_mem_replicate h1]; norm_num
  rw [fracChars, parseBE, foldl_digits _ 0 hlt, undigits_append_zeros,
    undigits_natDigits]
  simp

/-- Characters of `natChars` are digit characters. -/
theorem mem_natChars {c : Char} {n : Nat} (hc : c ∈ natChars n) :
    ∃ d, d < 10 ∧ c = digitToChar d := by
  by_cases hn : n = 0
  · subst hn
    simp [natChars] at hc
    exact ⟨0, by norm_num, by rw [hc]; rfl⟩
  · rw [natChars, if_neg hn, List.mem_reverse] at hc
    obtain ⟨d, hd, hcd⟩ := List.mem_map.mp hc
    exact ⟨d, mem_natDigitsAux_lt n n d hd, hcd.symm⟩

/-- Characters of `fracChars` are digit characters. -/
theorem mem_fracChars {c : Char} {m e : Nat} (hc : c ∈ fracChars m e) :
    ∃ d, d < 10 ∧ c = digitToChar d := by
  rw [fracChars, List.mem_reverse] at hc
  obtain ⟨d, hd, hcd⟩ := List.mem_map.mp hc
  refine ⟨d, ?_, hcd.symm⟩
  rcases List.mem_append.mp hd with h1 | h1
  · exact mem_natDigitsAux_lt m m d h1
  · rw [List.eq_of_mem_replicate h1]; norm_num

/-- A rendered natural number is never empty. -/
theorem natChars_ne_nil (n : Nat) : natChars n ≠ [] := by
  by_cases hn : n = 0
  · simp [natChars, hn]
  · rw [natChars, if_neg hn]
    intro hcon
    have : natDigits n = [] := by
      have := congrArg List.length hcon
      simp at this
      exact List.length_eq_zero.mp (by simp [this])
    rw [natDigits] at this
    rcases Nat.exists_eq_add_of_lt (Nat.pos_of_ne_zero hn) with ⟨k, hk⟩
    rw [show n = k + 1 by omega] at this
    rw [natDigitsAux, if_neg (by omega)] at this
    cases this

/-- Characters of a rendered decimal: digits, the sign, or the dot. -/
theorem mem_pyFloatChars {c : Char} {d : Dec} (hc : c ∈ pyFloatChars d) :
    (∃ dd, dd < 10 ∧ c = digitToChar dd) ∨ c = '-' ∨ c = '.' := by
  rw [pyFloatChars] at hc
  by_cases he : d.e = 0 <;> by_cases hm : d.m < 0
  · simp [he, hm] at hc
    rcases hc with hc | hc | hc | hc
    · exact Or.inr (Or.inl hc)
    · exact Or.inl (mem_natChars hc)
    · exact Or.inr (Or.inr hc)
    · exact Or.inl ⟨0, by norm_num, by rw [hc]; rfl⟩
  · simp [he, hm] at hc
    rcases hc with hc | hc | hc
    · exact Or.inl (mem_natChars hc)
    · exact Or.inr (Or.inr hc)
    · exact Or.inl ⟨0, by norm_num, by rw [hc]; rfl⟩
  · simp [he, hm] at hc
    rcases hc with hc | hc | hc | hc
    · exact Or.inr (Or.inl hc)
    · exact Or.inl (mem_natChars hc)
    · exact Or.inr (Or.inr hc)
    · exact Or.inl (mem_fracChars hc)
  · simp [he, hm] at hc
    rcases hc with hc | hc | hc
    · exact Or.inl (mem_natChars hc)
    · exact Or.inr (Or.inr hc)
    · exact Or.inl (mem_fracChars hc)

/-- A rendered decimal never contains an underscore. -/
theorem pyFloatChars_no_underscore (d : Dec) :
    ∀ c ∈ pyFloatChars d, c ≠ '_' := by
  intro c hc
  rcases mem_pyFloatChars hc with ⟨dd, hdd, rfl⟩ | rfl | rfl
  · exact (digitToChar_ne hdd).1
  · decide
  · decide

/-- Splitting at the first dot recovers the parts around it. -/
theorem split_at_dot (X F : List Char) (hX : ∀ c ∈ X, c ≠ '.') :
    (X ++ '.' :: F).takeWhile (fun c => c ≠ '.') = X ∧
    (X ++ '.' :: F).dropWhile (fun c => c ≠ '.') = '.' :: F := by
  induction X with
  | nil => constructor <;> simp
  | cons c X ih =>
      have hc : c ≠ '.' := hX c (by simp)
      obtain ⟨h1, h2⟩ := ih (fun x hx => hX x (by simp [hx]))
      simp only [ne_eq, decide_not] at h1 h2 ⊢
      constructor <;>
        simp [List.takeWhile_cons, List.dropWhile_cons, hc, h1, h2]

/-- `dotToUnderscore` is invertible on underscore-free strings. -/
theorem underscoreToDot_dotToUnderscore (cs : List Char)
    (h : ∀ c ∈ cs, c ≠ '_') :
    underscoreToDot (dotToUnderscore cs) = cs := by
  rw [underscoreToDot, dotToUnderscore, List.map_map]
  conv_rhs => rw [← List.map_id cs]
  refine List.map_congr_left ?_
  intro c hc
  by_cases hdot : c = '.'
  · simp [Function.comp, hdot]
  · simp [Function.comp, hdot, h c hc]

/-- A rendered natural number contains no dot. -/
theorem natChars_no_dot (k : Nat) : ∀ c ∈ natChars k, c ≠ '.' := by
  intro c hc
  obtain ⟨dd, hdd, rfl⟩ := mem_natChars hc
  exact (digitToChar_ne hdd).2.1

/-- Parsing inverts rendering on non-negative normal decimals. -/
theorem parsePyNN_pyFloatChars (m : Int) (e : Nat) (hnm : 0 ≤ m)
    (hnorm : Dec.Normal ⟨m, e⟩) :
    parsePyNN (pyFloatChars ⟨m, e⟩) = ⟨m, e⟩ := by
  have hmlt : ¬ m < 0 := by omega
  have ha : ((m.natAbs : Int)) = m := Int.natAbs_of_nonneg hnm
  rcases e with _ | e
  · have hpy : pyFloatChars ⟨m, 0⟩ = natChars m.natAbs ++ '.' :: ['0'] := by
      simp [pyFloatChars, hmlt]
    have hsplit := split_at_dot (natChars m.natAbs) ['0']
      (natChars_no_dot m.natAbs)
    rw [hpy, parsePyNN]
    simp only [hsplit.1, hsplit.2, List.drop, if_pos, parseBE_natChars]
    simp [ha]
  · have hpos : 0 < 10 ^ (e + 1) := by positivity
    have hnd : ¬ 10 ∣ m.natAbs := by
      rcases hnorm with hh | hh
      · simp at hh
      · intro hdvd
        refine hh ?_
        have h10 : (10 : Int) ∣ (m.natAbs : Int) :=
          Int.natCast_dvd_natCast.mpr hdvd
        rwa [ha] at h10
    have hmod : m.natAbs % 10 ^ (e + 1) < 10 ^ (e + 1) := Nat.mod_lt _ hpos
    have hfl := fracChars_length hmod
    have hpb := parseBE_fracChars hmod
    have hFne : fracChars (m.natAbs % 10 ^ (e + 1)) (e + 1) ≠ ['0'] := by
      intro hF
      have h0 : m.natAbs % 10 ^ (e + 1) = 0 := by
        have hx := hpb
        rw [hF] at hx
        simpa [parseBE, charToDigit] using hx.symm
      exact hnd (dvd_trans (dvd_pow_self 10 (Nat.succ_ne_zero e))
        (Nat.dvd_of_mod_eq_zero h0))
    have hpy : pyFloatChars ⟨m, e + 1⟩ =
        natChars (m.natAbs / 10 ^ (e + 1)) ++ '.' ::
          fracChars (m.natAbs % 10 ^ (e + 1)) (e + 1) := by
      simp [pyFloatChars, hmlt]
    have hsplit := split_at_dot (natChars (m.natAbs / 10 ^ (e + 1)))
      (fracChars (m.natAbs % 10 ^ (e + 1)) (e + 1))
      (natChars_no_dot (m.natAbs / 10 ^ (e + 1)))
    rw [hpy, parsePyNN]
    simp only [hsplit.1, hsplit.2, List.drop, if_neg hFne, parseBE_natChars,
      hfl, hpb]
    have hdm : m.natAbs / 10 ^ (e + 1) * 10 ^ (e + 1) +
        m.natAbs % 10 ^ (e + 1) = m.natAbs := by
      rw [Nat.mul_comm]
      exact Nat.div_add_mod m.natAbs (10 ^ (e + 1))
    simp only [Dec.mk.injEq]
    exact ⟨by rw [hdm, ha], trivial⟩

/-- Rendering a negative decimal prefixes a minus sign. -/
theorem pyFloatChars_neg (m : Int) (e : Nat) (hm : m < 0) :
    pyFloatChars ⟨m, e⟩ = '-' :: pyFloatChars ⟨(m.natAbs : Int), e⟩ := by
  have h2 : ¬ ((m.natAbs : Int) < 0) := by
    simp [Int.natCast_nonneg, not_lt]
  have h3 : (m.natAbs : Int).natAbs = m.natAbs := Int.natAbs_ofNat _
  have h4 : ¬ (|m| < 0) := not_lt.mpr (abs_nonneg m)
  have h5 : (|m|).natAbs = m.natAbs := Int.natAbs_abs m
  rcases e with _ | e <;> simp [pyFloatChars, hm, h2, h3, h4, h5]

/-- Normality is preserved under taking the absolute value. -/
theorem Normal_natAbs (m : Int) (e : Nat) (h : Dec.Normal ⟨m, e⟩) :
    Dec.Normal ⟨(m.natAbs : Int), e⟩ := by
  rcases h with h | h
  · exact Or.inl h
  · exact Or.inr fun hd => h (Int.dvd_natAbs.mp hd)

/-- A rendered non-negative decimal does not start with a minus sign. -/
theorem pyFloatChars_head_not_dash (m : Int) (e : Nat) (hm : ¬ m < 0) :
    (pyFloatChars ⟨m, e⟩).head? ≠ some '-' := by
  have key : ∀ (k : Nat) (X : List Char),
      (natChars k ++ X).head? ≠ some '-' := by
    intro k X
    obtain ⟨c, t, hct⟩ := List.exists_cons_of_ne_nil (natChars_ne_nil k)
    rw [hct]
    simp only [List.cons_append, List.head?_cons]
    intro hcon
    obtain ⟨dd, hdd, rfl⟩ := mem_natChars (by rw [hct]; simp :
      c ∈ natChars k)
    exact (digitToChar_ne hdd).2.2 (by injection hcon)
  rcases e with _ | e
  · have hpy : pyFloatChars ⟨m, 0⟩ = natChars m.natAbs ++ '.' :: ['0'] := by
      simp [pyFloatChars, hm]
    rw [hpy]
    exact key _ _
  · have hpy : pyFloatChars ⟨m, e + 1⟩ =
        natChars (m.natAbs / 10 ^ (e + 1)) ++ '.' ::
          fracChars (m.natAbs % 10 ^ (e + 1)) (e + 1) := by
      simp [pyFloatChars, hm]
    rw [hpy]
    exact key _ _

/-- Parsing inverts rendering on all normal decimals. -/
theorem parsePy_pyFloatChars : ∀ (d : Dec), d.Normal →
    parsePy (pyFloatChars d) = d
  | ⟨m, e⟩, h => by
    by_cases hm : m < 0
    · rw [pyFloatChars_neg m e hm, parsePy]
      simp only [List.head?_cons, if_pos, List.drop]
      rw [parsePyNN_pyFloatChars (m.natAbs : Int) e (Int.natCast_nonneg _)
        (Normal_natAbs m e h)]
      simp only [Dec.mk.injEq]
      exact ⟨by omega, trivial⟩
    · rw [parsePy,
        if_neg (by simpa using pyFloatChars_head_not_dash m e hm)]
      exact parsePyNN_pyFloatChars m e (by omega) h

/-- The decimal rendering is injective on normal decimals. -/
theorem pyFloatChars_inj : ∀ {d1 d2 : Dec}, d1.Normal → d2.Normal →
    pyFloatChars d1 = pyFloatChars d2 → d1 = d2 := by
  intro d1 d2 h1 h2 heq
  have hp := congrArg parsePy heq
  rwa [parsePy_pyFloatChars d1 h1, parsePy_pyFloatChars d2 h2] at hp

/-- C5: the temporary path of `_prep_flooder_input` is the base output
path with `str(elevation).replace('.', '_')` inserted before the
extension, and for a fixed base this is injective over distinct
(canonical) elevations; concretely, elevation 5.25 with base
`flood_output.shp` gives `flood_output5_25.shp`, which contains `5_25`
and differs from elevation 5.5's path. -/
theorem temp_fname_injective :
    (∀ (fo : List Char) (d1 d2 : Dec), d1.Normal → d2.Normal →
      temp_fname fo d1 = temp_fname fo d2 → d1 = d2) ∧
    temp_fname (pstr "flood_output.shp") ⟨525, 2⟩ =
      pstr "flood_output5_25.shp" ∧
    pstr "5_25" <:+: temp_fname (pstr "flood_output.shp") ⟨525, 2⟩ ∧
    temp_fname (pstr "flood_output.shp") ⟨525, 2⟩ ≠
      temp_fname (pstr "flood_output.shp") ⟨55, 1⟩ := by
  refine ⟨?_, by decide, ⟨pstr "flood_output", pstr ".shp", by decide⟩,
    by decide⟩
  intro fo d1 d2 h1 h2 heq
  rw [temp_fname, temp_fname] at heq
  have heq2 : dotToUnderscore (pyFloatChars d1) =
      dotToUnderscore (pyFloatChars d2) :=
    List.append_cancel_left (List.append_cancel_right heq)
  have hx : pyFloatChars d1 = pyFloatChars d2 := by
    have hmap := congrArg underscoreToDot heq2
    rwa [underscoreToDot_dotToUnderscore _ (pyFloatChars_no_underscore d1),
      underscoreToDot_dotToUnderscore _ (pyFloatChars_no_underscore d2)] at hmap
  exact pyFloatChars_inj h1 h2 hx

/-- Witness for C5: the injectivity statement instantiated at the
normal decimal 5.25 with base `flood_output.shp`. -/
theorem temp_fname_injective_witness :
    (⟨525, 2⟩ : Dec).Normal ∧
    temp_fname (pstr "flood_output.shp") ⟨525, 2⟩ =
      temp_fname (pstr "flood_output.shp") ⟨525, 2⟩ ∧
    (⟨525, 2⟩ : Dec) = ⟨525, 2⟩ :=
  ⟨by decide, rfl,
   temp_fname_injective.1 (pstr "flood_output.shp") ⟨525, 2⟩ ⟨525, 2⟩
     (by decide) (by decide) rfl⟩

